import Mathlib

/-!
Shallow embedding of holmesgpt's context-window budgeting and overflow
spillover subsystem, translated from:

* `holmes/core/conversations.py` (budget calculator, output truncators,
  system-prompt maintenance, chat assembly),
* `holmes/core/tools_utils/tool_context_window_limiter.py` (per-tool-call
  overflow policy),
* `holmes/core/tools_utils/filesystem_result_storage.py` (scratch storage).

Modelling conventions: Python text is modelled as `List Char` (one entry
per code point, so `len` matches `List.length`); Python's arbitrary-base
integers as `Int` / `Nat`; Python `None` as `Option.none`.  `int(a / b)`
on integers (true division followed by truncation toward zero) is modelled
as `Int.tdiv`.  Collaborators that the repository treats as external (the
LLM token accountant, `stringify_data` on tool results, the filesystem
write) are function-valued parameters, so every theorem quantifies over
their behaviour.
-/

/-- Python's slice `s[:k]` for an arbitrary integer bound `k`: a nonnegative
`k` keeps the first `k` characters; a negative `k` keeps all but the last
`-k` characters (clamped at zero). -/
def pySlice (s : List Char) (k : Int) : List Char :=
  if 0 ≤ k then s.take k.toNat else s.take (s.length - (-k).toNat)

/-- An OpenAI-format chat message.  Only the fields the budgeting core reads
and writes (`role`, `content`) are modelled; extra keys such as
`tool_call_id` are never consulted by this code. -/
structure Message where
  role : List Char
  content : List Char
deriving DecidableEq, Repr

/-- `holmes.core.models.ToolCallConversationResult`: the record built by
`truncate_tool_outputs` (fields `name`, `description`, `output`). -/
structure ToolCallConversationResult where
  name : List Char
  description : List Char
  output : List Char
deriving DecidableEq, Repr

/-- The token-accounting collaborator used by `calculate_tool_size`
(`ai.llm` in the source): context-window size, a token counter over
messages, and the reserved maximum output tokens. -/
structure ConvLLM where
  context_window : Nat
  count_tokens : List Message → Nat
  maximum_output_token : Nat

/-- `DEFAULT_TOOL_SIZE` from `holmes/core/conversations.py`. -/
def DEFAULT_TOOL_SIZE : Int := 10000

/-- `calculate_tool_size` from `holmes/core/conversations.py` lines 27-45.
With zero tool slots it returns the default budget without consulting the
accountant; otherwise it is
`min(DEFAULT_TOOL_SIZE, int((context_window - tokens - max_output) / n))`,
where Python's `int(a / b)` truncates toward zero (`Int.tdiv`). -/
def calculate_tool_size (ai : ConvLLM) (messages_without_tools : List Message)
    (number_of_tools : Nat) : Int :=
  if number_of_tools = 0 then DEFAULT_TOOL_SIZE
  else
    min DEFAULT_TOOL_SIZE
      (Int.tdiv
        ((ai.context_window : Int) - (ai.count_tokens messages_without_tools : Int)
          - (ai.maximum_output_token : Int))
        (number_of_tools : Int))

/-- `truncate_tool_outputs` from `holmes/core/conversations.py` lines 48-58:
builds a fresh `ToolCallConversationResult` per input, slicing the output to
`tool_size` characters (Python slice semantics). -/
def truncate_tool_outputs (tools : List ToolCallConversationResult)
    (tool_size : Int) : List ToolCallConversationResult :=
  tools.map fun tool =>
    { name := tool.name
      description := tool.description
      output := pySlice tool.output tool_size }

/-- `truncate_tool_messages` from `holmes/core/conversations.py` lines 61-64,
value-level view: every `tool`-role message has its content sliced to
`tool_size`; other messages are untouched.  (The in-place, aliasing-aware
view of the same loop is `truncate_tool_messages_heap` below.) -/
def truncate_tool_messages (conversation_history : List Message)
    (tool_size : Int) : List Message :=
  conversation_history.map fun message =>
    if message.role = "tool".toList then
      { message with content := pySlice message.content tool_size }
    else message

/-- `add_or_update_system_prompt` from `holmes/core/conversations.py` lines
233-261, value-level view: `None` prompt is a no-op; an empty history gets a
single system message; a system-role head is overwritten; otherwise the
history is left untouched when any system message exists anywhere, and a new
system message is inserted at position 0 when none does. -/
def add_or_update_system_prompt (conversation_history : List Message)
    (system_prompt : Option (List Char)) : List Message :=
  match system_prompt with
  | none => conversation_history
  | some p =>
    match conversation_history with
    | [] => [⟨"system".toList, p⟩]
    | m0 :: rest =>
      if m0.role = "system".toList then ⟨m0.role, p⟩ :: rest
      else if (m0 :: rest).any (fun m => m.role = "system".toList) then m0 :: rest
      else ⟨"system".toList, p⟩ :: m0 :: rest

theorem pySlice_length_of_nonneg (s : List Char) (k : Int) (hk : 0 ≤ k) :
    (pySlice s k).length = min k.toNat s.length := by
  simp [pySlice, hk, List.length_take]

theorem pySlice_length_of_neg (s : List Char) (k : Int) (hk : k < 0) :
    ((pySlice s k).length : Int) = max 0 ((s.length : Int) + k) := by
  have hk' : ¬ 0 ≤ k := not_le.mpr hk
  simp only [pySlice, hk', if_false, List.length_take]
  omega

theorem pySlice_isPre (s : List Char) (k : Int) : pySlice s k <+: s := by
  unfold pySlice
  split
  · exact ⟨s.drop k.toNat, List.take_append_drop _ s⟩
  · exact ⟨s.drop (s.length - (-k).toNat), List.take_append_drop _ s⟩

/-- Claim C8: for every token accountant and every baseline message list,
`calculate_tool_size` with zero tool slots returns exactly the fixed default
budget 10000; the result does not depend on the accountant at all. -/
theorem C8_zero_slots_default (ai : ConvLLM)
    (messages_without_tools : List Message) :
    calculate_tool_size ai messages_without_tools 0 = 10000 := by
  simp [calculate_tool_size, DEFAULT_TOOL_SIZE]

/-- Claim C2, counterexample: with a context window of 0, a baseline of 100
tokens and one tool slot, `calculate_tool_size` returns `-100`, which is not
clamped to zero; fed to `truncate_tool_outputs`, the negative budget is used
directly as a Python slice bound (keeping all but the last 100 characters),
so a 103-character output is cut to 3 characters, not to 0. -/
theorem C2_negative_budget_counterexample :
    calculate_tool_size ⟨0, fun _ => 100, 0⟩ [] 1 = -100 ∧
    ¬ (0 : Int) ≤ calculate_tool_size ⟨0, fun _ => 100, 0⟩ [] 1 ∧
    truncate_tool_outputs [⟨"t".toList, "d".toList, "xyz".toList ++ List.replicate 100 'a'⟩]
        (calculate_tool_size ⟨0, fun _ => 100, 0⟩ [] 1)
      = [⟨"t".toList, "d".toList, "xyz".toList⟩] := by
  refine ⟨by decide, by decide, ?_⟩
  simp [truncate_tool_outputs, pySlice, calculate_tool_size, DEFAULT_TOOL_SIZE]

/-- Claim C2 as amended: the budget produced by `calculate_tool_size` is
nonnegative whenever the baseline fits the window (tokens plus reserved
output at most the context window), and then every output truncated with it
has length at most the budget; when the baseline exceeds the window the code
performs no clamping, the budget may be negative, and slicing follows
Python's negative-slice semantics (`pySlice`). -/
theorem C2_budget_nonneg_amended (ai : ConvLLM) (msgs : List Message) (n : Nat)
    (hn : 0 < n)
    (hfits : (ai.count_tokens msgs : Int) + (ai.maximum_output_token : Int)
      ≤ (ai.context_window : Int)) :
    0 ≤ calculate_tool_size ai msgs n ∧
    (∀ tools, ∀ r ∈ truncate_tool_outputs tools (calculate_tool_size ai msgs n),
      (r.output.length : Int) ≤ calculate_tool_size ai msgs n) ∧
    ∀ history,
      ∀ m ∈ truncate_tool_messages history (calculate_tool_size ai msgs n),
        m.role = "tool".toList →
        (m.content.length : Int) ≤ calculate_tool_size ai msgs n := by
  have hn' : (n : Nat) ≠ 0 := Nat.pos_iff_ne_zero.mp hn
  have ha : (0 : Int) ≤ (ai.context_window : Int) - (ai.count_tokens msgs : Int)
      - (ai.maximum_output_token : Int) := by omega
  have hb : (0 : Int) ≤ (n : Int) := Int.natCast_nonneg n
  have hsize : 0 ≤ calculate_tool_size ai msgs n := by
    unfold calculate_tool_size
    rw [if_neg hn']
    exact le_min (by norm_num [DEFAULT_TOOL_SIZE]) (Int.tdiv_nonneg ha hb)
  refine ⟨hsize, ?_, ?_⟩
  · intro tools r hr
    simp only [truncate_tool_outputs, List.mem_map] at hr
    obtain ⟨t, _, rfl⟩ := hr
    have hlen := pySlice_length_of_nonneg t.output (calculate_tool_size ai msgs n)
      hsize
    simp only [hlen]
    omega
  · intro history m hm htool
    simp only [truncate_tool_messages, List.mem_map] at hm
    obtain ⟨m0, _, rfl⟩ := hm
    by_cases h : m0.role = "tool".toList
    · rw [if_pos h]
      have hlen := pySlice_length_of_nonneg m0.content
        (calculate_tool_size ai msgs n) hsize
      simp only [hlen]
      omega
    · rw [if_neg h] at htool
      exact absurd htool h

theorem C2_budget_nonneg_amended_witness :
    0 ≤ calculate_tool_size ⟨8000, fun _ => 2000, 1000⟩ [] 5 ∧
    (∀ tools, ∀ r ∈ truncate_tool_outputs tools
        (calculate_tool_size ⟨8000, fun _ => 2000, 1000⟩ [] 5),
      (r.output.length : Int)
        ≤ calculate_tool_size ⟨8000, fun _ => 2000, 1000⟩ [] 5) ∧
    ∀ history, ∀ m ∈ truncate_tool_messages history
        (calculate_tool_size ⟨8000, fun _ => 2000, 1000⟩ [] 5),
      m.role = "tool".toList →
      (m.content.length : Int)
        ≤ calculate_tool_size ⟨8000, fun _ => 2000, 1000⟩ [] 5 :=
  C2_budget_nonneg_amended ⟨8000, fun _ => 2000, 1000⟩ [] 5 (by decide) (by decide)

/-- Claim C3, counterexample: for context window 0, baseline 100 tokens and
reserved output 0, the available space is negative; Python's `int(a / b)`
truncates toward zero, so more slots give a budget closer to zero:
1 slot gives -100 and 2 slots give -50, and -50 is not at most -100, so the
budget is not antitone in the number of slots. -/
theorem C3_antitone_counterexample :
    calculate_tool_size ⟨0, fun _ => 100, 0⟩ [] 1 = -100 ∧
    calculate_tool_size ⟨0, fun _ => 100, 0⟩ [] 2 = -50 ∧
    ¬ calculate_tool_size ⟨0, fun _ => 100, 0⟩ [] 2
        ≤ calculate_tool_size ⟨0, fun _ => 100, 0⟩ [] 1 := by
  exact ⟨by decide, by decide, by decide⟩

/-- Claim C3 as amended: for fixed accountant data, `calculate_tool_size` is
antitone in the number of tool slots whenever the baseline fits the window
(available space nonnegative); when the baseline already exceeds the window
the truncation toward zero of a negative quotient reverses the order. -/
theorem C3_antitone_amended (ai : ConvLLM) (msgs : List Message) (m n : Nat)
    (hm : 0 < m) (hmn : m ≤ n)
    (hfits : (ai.count_tokens msgs : Int) + (ai.maximum_output_token : Int)
      ≤ (ai.context_window : Int)) :
    calculate_tool_size ai msgs n ≤ calculate_tool_size ai msgs m := by
  have hn : 0 < n := lt_of_lt_of_le hm hmn
  have hm' : m ≠ 0 := Nat.pos_iff_ne_zero.mp hm
  have hn' : n ≠ 0 := Nat.pos_iff_ne_zero.mp hn
  have ha : (0 : Int) ≤ (ai.context_window : Int) - (ai.count_tokens msgs : Int)
      - (ai.maximum_output_token : Int) := by omega
  obtain ⟨k, hk⟩ := Int.eq_ofNat_of_zero_le ha
  unfold calculate_tool_size
  rw [if_neg hn', if_neg hm', hk]
  refine min_le_min le_rfl ?_
  show (k : Int).tdiv (n : Int) ≤ (k : Int).tdiv (m : Int)
  have h1 : (k : Int).tdiv (n : Int) = ((k / n : Nat) : Int) := rfl
  have h2 : (k : Int).tdiv (m : Int) = ((k / m : Nat) : Int) := rfl
  rw [h1, h2]
  exact_mod_cast Nat.div_le_div_left hmn hm

theorem C3_antitone_amended_witness :
    calculate_tool_size ⟨8000, fun _ => 2000, 1000⟩ [] 5
      ≤ calculate_tool_size ⟨8000, fun _ => 2000, 1000⟩ [] 2 :=
  C3_antitone_amended ⟨8000, fun _ => 2000, 1000⟩ [] 2 5 (by decide) (by decide)
    (by decide)

/-- Claim C5, counterexample: `truncate_tool_outputs` with the negative
budget -1 and a 2-character output keeps 1 character (Python slice
`s[:-1]`), so the output length is not at most `max(budget, 0) = 0`. -/
theorem C5_length_bound_counterexample :
    truncate_tool_outputs [⟨"n".toList, "d".toList, "ab".toList⟩] (-1)
      = [⟨"n".toList, "d".toList, "a".toList⟩] ∧
    ¬ ((((truncate_tool_outputs [⟨"n".toList, "d".toList, "ab".toList⟩]
          (-1)).headD ⟨[], [], []⟩).output.length : Int) ≤ max (-1 : Int) 0) := by
  refine ⟨?_, ?_⟩ <;> simp [truncate_tool_outputs, pySlice]

/-- Claim C5 as amended: `truncate_tool_outputs` pairs each input with an
output record whose `name` and `description` are preserved and whose
`output` is exactly the Python slice `output[:budget]` — hence a prefix of
the original; for a nonnegative budget its length is at most the budget,
while for a negative budget it is `max(0, len + budget)` (not `0`).  The
input list is not mutated: the function builds fresh records. -/
theorem C5_truncate_tool_outputs_amended
    (tools : List ToolCallConversationResult) (k : Int) :
    List.Forall₂ (fun t r =>
        r.name = t.name ∧ r.description = t.description ∧
        r.output = pySlice t.output k ∧ r.output <+: t.output ∧
        (0 ≤ k → (r.output.length : Int) ≤ max k 0) ∧
        (k < 0 → (r.output.length : Int) = max 0 ((t.output.length : Int) + k)))
      tools (truncate_tool_outputs tools k) := by
  induction tools with
  | nil => exact List.Forall₂.nil
  | cons t ts ih =>
      refine List.Forall₂.cons ⟨rfl, rfl, rfl, pySlice_isPre _ _, ?_, ?_⟩ ih
      · intro hk
        have hlen := pySlice_length_of_nonneg t.output k hk
        rw [hlen]
        have h1 : min k.toNat t.output.length ≤ k.toNat := Nat.min_le_left _ _
        have h2 : (k.toNat : Int) = k := Int.toNat_of_nonneg hk
        have h3 : k ≤ max k 0 := le_max_left _ _
        omega
      · intro hk
        exact pySlice_length_of_neg t.output k hk

theorem C5_truncate_tool_outputs_amended_witness :
    List.Forall₂ (fun (t r : ToolCallConversationResult) =>
        r.name = t.name ∧ r.description = t.description ∧
        r.output = pySlice t.output (-1) ∧ r.output <+: t.output ∧
        (0 ≤ (-1 : Int) → (r.output.length : Int) ≤ max (-1 : Int) 0) ∧
        ((-1 : Int) < 0 →
          (r.output.length : Int) = max 0 ((t.output.length : Int) + (-1))))
      [⟨"n".toList, "d".toList, "ab".toList⟩]
      (truncate_tool_outputs [⟨"n".toList, "d".toList, "ab".toList⟩] (-1)) :=
  C5_truncate_tool_outputs_amended [⟨"n".toList, "d".toList, "ab".toList⟩] (-1)

/-- Claim C6: `add_or_update_system_prompt` case analysis, exactly as the
code writes it: a `None` prompt returns the history unchanged; an empty
history gets a single appended system message; a system-role head has its
content overwritten; a history whose head is not system-role is left
untouched when any system-role message exists anywhere in it, and otherwise
a new system message is inserted at position 0. -/
theorem C6_add_or_update_system_prompt_cases (history : List Message)
    (p : List Char) :
    add_or_update_system_prompt history none = history ∧
    add_or_update_system_prompt [] (some p) = [⟨"system".toList, p⟩] ∧
    (∀ m0 rest, history = m0 :: rest → m0.role = "system".toList →
      add_or_update_system_prompt history (some p) = ⟨m0.role, p⟩ :: rest) ∧
    (∀ m0 rest, history = m0 :: rest → m0.role ≠ "system".toList →
      (∃ m ∈ history, m.role = "system".toList) →
      add_or_update_system_prompt history (some p) = history) ∧
    (∀ m0 rest, history = m0 :: rest → m0.role ≠ "system".toList →
      (∀ m ∈ history, m.role ≠ "system".toList) →
      add_or_update_system_prompt history (some p)
        = ⟨"system".toList, p⟩ :: history) := by
  have hcons : ∀ (m0 : Message) (rest : List Message),
      add_or_update_system_prompt (m0 :: rest) (some p)
        = if m0.role = "system".toList then ⟨m0.role, p⟩ :: rest
          else if (m0 :: rest).any (fun m => m.role = "system".toList) then
            m0 :: rest
          else ⟨"system".toList, p⟩ :: m0 :: rest := fun _ _ => rfl
  refine ⟨rfl, rfl, ?_, ?_, ?_⟩
  · intro m0 rest h hrole
    subst h
    rw [hcons, if_pos hrole]
  · intro m0 rest h hrole hex
    subst h
    have hany : ((m0 :: rest).any (fun m => m.role = "system".toList)) = true := by
      rw [List.any_eq_true]
      obtain ⟨m, hm, hrm⟩ := hex
      exact ⟨m, hm, by simp [hrm]⟩
    rw [hcons, if_neg hrole, if_pos hany]
  · intro m0 rest h hrole hnone
    subst h
    have hany : ((m0 :: rest).any (fun m => m.role = "system".toList)) = false := by
      rw [List.any_eq_false]
      intro m hm
      simpa using hnone m hm
    rw [hcons, if_neg hrole, if_neg (by rw [hany]; exact Bool.false_ne_true)]

theorem C6_add_or_update_system_prompt_cases_witness :
    add_or_update_system_prompt [⟨"user".toList, "u".toList⟩] none
      = [⟨"user".toList, "u".toList⟩] ∧
    add_or_update_system_prompt [] (some "P".toList)
      = [⟨"system".toList, "P".toList⟩] ∧
    add_or_update_system_prompt
        [⟨"system".toList, "old".toList⟩, ⟨"user".toList, "u".toList⟩]
        (some "P".toList)
      = [⟨"system".toList, "P".toList⟩, ⟨"user".toList, "u".toList⟩] ∧
    add_or_update_system_prompt
        [⟨"user".toList, "u".toList⟩, ⟨"system".toList, "old".toList⟩]
        (some "P".toList)
      = [⟨"user".toList, "u".toList⟩, ⟨"system".toList, "old".toList⟩] ∧
    add_or_update_system_prompt [⟨"user".toList, "u".toList⟩] (some "P".toList)
      = [⟨"system".toList, "P".toList⟩, ⟨"user".toList, "u".toList⟩] := by
  refine ⟨(C6_add_or_update_system_prompt_cases [⟨"user".toList, "u".toList⟩]
    "P".toList).1, (C6_add_or_update_system_prompt_cases [] "P".toList).2.1,
    ?_, ?_, ?_⟩
  · exact (C6_add_or_update_system_prompt_cases
      [⟨"system".toList, "old".toList⟩, ⟨"user".toList, "u".toList⟩]
      "P".toList).2.2.1 ⟨"system".toList, "old".toList⟩
      [⟨"user".toList, "u".toList⟩] rfl rfl
  · exact (C6_add_or_update_system_prompt_cases
      [⟨"user".toList, "u".toList⟩, ⟨"system".toList, "old".toList⟩]
      "P".toList).2.2.2.1 ⟨"user".toList, "u".toList⟩
      [⟨"system".toList, "old".toList⟩] rfl (by decide)
      ⟨⟨"system".toList, "old".toList⟩, by simp, rfl⟩
  · exact (C6_add_or_update_system_prompt_cases [⟨"user".toList, "u".toList⟩]
      "P".toList).2.2.2.2 ⟨"user".toList, "u".toList⟩ [] rfl (by decide)
      (by decide)

/-! ### Overflow storage and the per-tool-call overflow policy -/

/-- Python's `\w` as matched by `re.sub(r"[^\w\-]", "_", s)` on a `str`:
Unicode-aware, it matches `[A-Za-z0-9_]` and also every non-ASCII Unicode
word character (letters such as `ï` or `é`).  The full table lives in
Python's `re` engine, outside this repository; the model carries the ASCII
fragment exactly, together with the Latin-1 letters (U+00C0 to U+00FF minus
the two signs `×` U+00D7 and `÷` U+00F7) as the representative non-ASCII
word characters the claims exercise.  On every ASCII character the model
agrees with Python exactly. -/
def pyIsWordChar (c : Char) : Bool :=
  c.isAlphanum || c = '_'
    || (0xC0 ≤ c.toNat && c.toNat ≤ 0xFF && c.toNat ≠ 0xD7 && c.toNat ≠ 0xF7)

/-- The sanitisation `re.sub(r"[^\w\-]", "_", s)` applied by
`save_large_result` (`filesystem_result_storage.py` lines 53-54): every
character that is neither a word character (Unicode-aware `\w`, see
`pyIsWordChar`) nor a hyphen becomes `_`. -/
def sanitize (s : List Char) : List Char :=
  s.map fun c => if pyIsWordChar c ∨ c = '-' then c else '_'

/-- The file name `f"{safe_name}_{safe_id}{extension}"` built by
`save_large_result` (lines 53-56), with extension `.json` or `.txt`. -/
def result_filename (tool_name tool_call_id : List Char) (is_json : Bool) :
    List Char :=
  sanitize tool_name ++ "_".toList ++ sanitize tool_call_id
    ++ (if is_json then ".json".toList else ".txt".toList)

/-- `save_large_result` from `filesystem_result_storage.py` lines 40-62: on
a successful write it returns the full path `<dir>/<filename>`; any I/O
failure (modelled by the collaborator outcome `write_ok = false`) is caught
and reported as `none`.  The written `content` does not influence the
returned path. -/
def save_large_result (tool_results_dir : List Char)
    (tool_name tool_call_id : List Char) (content : List Char)
    (is_json : Bool) (write_ok : Bool) : Option (List Char) :=
  if write_ok then
    some (tool_results_dir ++ "/".toList
      ++ result_filename tool_name tool_call_id is_json)
  else
    let _ := content
    none

/-- `holmes.core.tools.StructuredToolResultStatus`, as the spec's data model
states it (the class itself is not among the staged files): `SUCCESS` or
`ERROR`. -/
inductive StructuredToolResultStatus where
  | SUCCESS
  | ERROR
deriving DecidableEq, Repr

/-- `holmes.core.tools.StructuredToolResult` (per the spec's data model):
status, optional data, optional error text. -/
structure StructuredToolResult where
  status : StructuredToolResultStatus
  data : Option (List Char)
  error : Option (List Char)
deriving DecidableEq, Repr

/-- `holmes.core.models.ToolCallResult` (per the spec's data model): the
tool call's name and id together with its structured result. -/
structure ToolCallResult where
  tool_name : List Char
  tool_call_id : List Char
  result : StructuredToolResult
deriving DecidableEq, Repr

/-- The token-accounting collaborator used by the overflow policy:
`llm.count_tokens([result.as_tool_call_message()]).total_tokens` is a
function of the tool call result, and
`llm.get_max_token_count_for_single_tool()` is a constant. -/
structure LimiterLLM where
  count_message_tokens : ToolCallResult → Nat
  max_token_count_for_single_tool : Nat

/-- `f"The tool call result is too large to return: {mt}/{maxT} tokens.\n"`
(`tool_context_window_limiter.py` line 45). -/
def size_info_of (messages_token max_tokens_allowed : Nat) : List Char :=
  "The tool call result is too large to return: ".toList
    ++ (Nat.repr messages_token).toList ++ "/".toList
    ++ (Nat.repr max_tokens_allowed).toList ++ " tokens.\n".toList

/-- The boilerplate prepended to the preview when the oversized result was
saved to a file (`tool_context_window_limiter.py` lines 61-66). -/
def boilerplate_of (messages_token max_tokens_allowed : Nat)
    (file_path : List Char) : List Char :=
  size_info_of messages_token max_tokens_allowed ++ "\n".toList
    ++ "Saved to: ".toList ++ file_path ++ "\n".toList
    ++ "Use the bash commands to access the data that won\x27t require prompting the user for approval (e.g. cat, grep, head, tail, jq).\n".toList
    ++ "\nPreview:\n".toList

/-- `int(max(0, max_chars - len(boilerplate)))` with
`max_chars = max_tokens_allowed * (chars_per_token / 2) = 2 * max_tokens_allowed`
(`tool_context_window_limiter.py` lines 68-71). -/
def preview_budget_of (max_tokens_allowed : Nat) (boilerplate : List Char) :
    Nat :=
  (max 0 (2 * (max_tokens_allowed : Int) - (boilerplate.length : Int))).toNat

/-- The fixed error message set when spillover is unavailable or failed
(`tool_context_window_limiter.py` lines 80-84). -/
def narrow_error_of (messages_token max_tokens_allowed : Nat) : List Char :=
  size_info_of messages_token max_tokens_allowed ++ "\n".toList
    ++ "Try to repeat the query but proactively narrow down the result so that the tool answer fits within the allowed number of tokens.".toList

/-- `prevent_overly_big_tool_response` from
`tool_context_window_limiter.py` lines 22-89, modelled as a pure function
returning the (possibly mutated) result together with the returned token
count.  Parameters standing for collaborators: `storage_enabled` is
`load_bool("HOLMES_TOOL_RESULT_STORAGE_ENABLED", True)`, `stringify_data`
is `result.stringify_data(compact=False)` applied to the result's data, and
`write_ok` is the outcome of the filesystem write inside
`save_large_result`.  Early returns: a non-`SUCCESS` status or a token
count within the single-tool limit leave the result untouched. -/
def prevent_overly_big_tool_response (tool_call_result : ToolCallResult)
    (llm : LimiterLLM) (tool_results_dir : Option (List Char))
    (storage_enabled : Bool)
    (stringify_data : Option (List Char) → List Char × Bool)
    (write_ok : Bool) : ToolCallResult × Nat :=
  let messages_token := llm.count_message_tokens tool_call_result
  let max_tokens_allowed := llm.max_token_count_for_single_tool
  if tool_call_result.result.status ≠ StructuredToolResultStatus.SUCCESS then
    (tool_call_result, messages_token)
  else if messages_token ≤ max_tokens_allowed then
    (tool_call_result, messages_token)
  else
    let sd := stringify_data tool_call_result.result.data
    let file_path : Option (List Char) :=
      match tool_results_dir with
      | some dir =>
        if storage_enabled then
          save_large_result dir tool_call_result.tool_name
            tool_call_result.tool_call_id sd.1 sd.2 write_ok
        else none
      | none => none
    match file_path with
    | some fp =>
      let boilerplate := boilerplate_of messages_token max_tokens_allowed fp
      let preview := sd.1.take (preview_budget_of max_tokens_allowed boilerplate)
      ({ tool_call_result with
          result := { tool_call_result.result with
            data := some (boilerplate ++ preview) } },
        messages_token)
    | none =>
      ({ tool_call_result with
          result :=
            { status := StructuredToolResultStatus.ERROR
              data := none
              error := some (narrow_error_of messages_token max_tokens_allowed) } },
        messages_token)

/-- A character with code point below 128: on these, the modelled
`pyIsWordChar` together with the hyphen is exactly the class
`[A-Za-z0-9_-]`. -/
theorem pyIsWordChar_ascii (c : Char) (hc : c.toNat < 128) :
    (pyIsWordChar c = true ∨ c = '-') ↔
      (c.isAlpha ∨ c.isDigit ∨ c = '_' ∨ c = '-') := by
  have hrange : decide (0xC0 ≤ c.toNat) = false := by
    rw [decide_eq_false_iff_not]
    omega
  simp only [pyIsWordChar, Char.isAlphanum, hrange, Bool.false_and,
    Bool.or_false, Bool.or_eq_true, decide_eq_true_eq]
  tauto

/-- Claim C7, counterexample: Python's `\w` on `str` is Unicode-aware, so
`re.sub(r"[^\w\-]", "_", "naïve")` keeps the `ï` — a Unicode word
character — even though `ï` lies outside `[A-Za-z0-9_-]`: the sanitiser
does not replace every character outside that class with `_`. -/
theorem C7_unicode_counterexample :
    sanitize "naïve".toList = "naïve".toList ∧
    'ï' ∈ sanitize "naïve".toList ∧
    ¬ ('ï'.isAlpha ∨ 'ï'.isDigit ∨ 'ï' = '_' ∨ 'ï' = '-') := by
  refine ⟨by decide, by decide, by decide⟩

/-- Claim C7 as amended: the sanitisation preserves length and replaces
every character that is not a Python word character (Unicode-aware `\w`)
and not a hyphen with `_`; on ASCII input this is exactly the class
`[A-Za-z0-9_-]`, every character of the output is a word character, a
hyphen or `_`, and for `tool_name = "../../etc/passwd"` and any
`tool_call_id` the produced filename contains no path-separator
character. -/
theorem C7_sanitize_and_filename :
    (∀ s : List Char, (sanitize s).length = s.length) ∧
    (∀ s : List Char, (∀ c ∈ s, c.toNat < 128) →
      sanitize s = s.map fun c =>
        if c.isAlpha ∨ c.isDigit ∨ c = '_' ∨ c = '-' then c else '_') ∧
    (∀ s : List Char, ∀ c ∈ sanitize s,
      pyIsWordChar c = true ∨ c = '-' ∨ c = '_') ∧
    (∀ (tool_call_id : List Char) (is_json : Bool),
      '/' ∉ result_filename "../../etc/passwd".toList tool_call_id is_json) := by
  have hmemshape : ∀ s : List Char, ∀ c ∈ sanitize s,
      pyIsWordChar c = true ∨ c = '-' ∨ c = '_' := by
    intro s c hc
    simp only [sanitize, List.mem_map] at hc
    obtain ⟨c0, -, hc0⟩ := hc
    by_cases h : pyIsWordChar c0 = true ∨ c0 = '-'
    · rw [if_pos h] at hc0
      subst hc0
      rcases h with h | h
      · exact Or.inl h
      · exact Or.inr (Or.inl h)
    · rw [if_neg h] at hc0
      exact Or.inr (Or.inr hc0.symm)
  have hslash : ∀ s : List Char, '/' ∉ sanitize s := by
    intro s hmem
    rcases hmemshape s '/' hmem with h | h | h
    · exact absurd h (by decide)
    · exact absurd h (by decide)
    · exact absurd h (by decide)
  refine ⟨?_, ?_, hmemshape, ?_⟩
  · intro s
    simp [sanitize]
  · intro s hs
    refine List.map_congr_left ?_
    intro c hc
    have hiff := pyIsWordChar_ascii c (hs c hc)
    by_cases h : pyIsWordChar c = true ∨ c = '-'
    · rw [if_pos h, if_pos (hiff.mp h)]
    · rw [if_neg h, if_neg (fun hx => h (hiff.mpr hx))]
  · intro tool_call_id is_json hmem
    simp only [result_filename, List.append_assoc, List.mem_append] at hmem
    rcases hmem with h | h | h | h
    · exact hslash _ h
    · exact absurd h (by decide)
    · exact hslash _ h
    · cases is_json <;> revert h <;> decide

theorem C7_sanitize_and_filename_witness :
    (sanitize "../../etc/passwd".toList).length
      = "../../etc/passwd".toList.length ∧
    sanitize "../../etc/passwd".toList
      = "../../etc/passwd".toList.map (fun c =>
          if c.isAlpha ∨ c.isDigit ∨ c = '_' ∨ c = '-' then c else '_') ∧
    '/' ∉ result_filename "../../etc/passwd".toList "call-42".toList true :=
  ⟨C7_sanitize_and_filename.1 "../../etc/passwd".toList,
   C7_sanitize_and_filename.2.1 "../../etc/passwd".toList (by decide),
   C7_sanitize_and_filename.2.2.2 "call-42".toList true⟩

/-- Claim C4: `prevent_overly_big_tool_response` is a no-op on the result
(and returns the measured token count) whenever the spillover precondition
fails: either the status is not `SUCCESS`, or the measured message token
count is within the single-tool limit. -/
theorem C4_no_op_cases (tcr : ToolCallResult) (llm : LimiterLLM)
    (dir : Option (List Char)) (en : Bool)
    (strf : Option (List Char) → List Char × Bool) (wok : Bool) :
    (tcr.result.status ≠ StructuredToolResultStatus.SUCCESS →
      prevent_overly_big_tool_response tcr llm dir en strf wok
        = (tcr, llm.count_message_tokens tcr)) ∧
    (tcr.result.status = StructuredToolResultStatus.SUCCESS →
      llm.count_message_tokens tcr ≤ llm.max_token_count_for_single_tool →
      prevent_overly_big_tool_response tcr llm dir en strf wok
        = (tcr, llm.count_message_tokens tcr)) := by
  constructor
  · intro h
    simp [prevent_overly_big_tool_response, h]
  · intro h hle
    simp [prevent_overly_big_tool_response, h, hle]

theorem C4_no_op_cases_witness :
    prevent_overly_big_tool_response
        ⟨"t".toList, "i".toList,
          ⟨StructuredToolResultStatus.ERROR, none, some "e".toList⟩⟩
        ⟨fun _ => 7, 3⟩ none true (fun d => (d.getD [], false)) true
      = (⟨"t".toList, "i".toList,
          ⟨StructuredToolResultStatus.ERROR, none, some "e".toList⟩⟩, 7) ∧
    prevent_overly_big_tool_response
        ⟨"t".toList, "i".toList,
          ⟨StructuredToolResultStatus.SUCCESS, some "d".toList, none⟩⟩
        ⟨fun _ => 3, 5⟩ none true (fun d => (d.getD [], false)) true
      = (⟨"t".toList, "i".toList,
          ⟨StructuredToolResultStatus.SUCCESS, some "d".toList, none⟩⟩, 3) :=
  ⟨(C4_no_op_cases _ _ _ _ _ _).1 (by decide),
   (C4_no_op_cases _ _ _ _ _ _).2 rfl (by decide)⟩

/-- Outcome (a) of claim C1 exactly as the claim states it. -/
def claimOutcomeA (after : ToolCallResult)
    (messages_token max_tokens_allowed : Nat) : Prop :=
  after.result.status = StructuredToolResultStatus.SUCCESS ∧
  ∃ fp pv, pv ≠ [] ∧
    pv.length ≤ preview_budget_of max_tokens_allowed
      (boilerplate_of messages_token max_tokens_allowed fp) ∧
    after.result.data
      = some (boilerplate_of messages_token max_tokens_allowed fp ++ pv)

/-- Outcome (b) of claim C1. -/
def claimOutcomeB (after : ToolCallResult) : Prop :=
  after.result.status = StructuredToolResultStatus.ERROR ∧
  after.result.data = none ∧
  ∃ e, after.result.error = some e ∧ e ≠ []

/-- The spill outcome of the amended claim C1: status stays `SUCCESS` and the
data is the boilerplate (which contains the saved file path as a substring)
followed by the preview, the slice of the stringified data to the preview
budget; the preview may be empty. -/
def spillOutcome (after : ToolCallResult)
    (messages_token max_tokens_allowed : Nat) (stringified : List Char) :
    Prop :=
  after.result.status = StructuredToolResultStatus.SUCCESS ∧
  ∃ fp pv,
    pv = stringified.take (preview_budget_of max_tokens_allowed
      (boilerplate_of messages_token max_tokens_allowed fp)) ∧
    pv.length ≤ preview_budget_of max_tokens_allowed
      (boilerplate_of messages_token max_tokens_allowed fp) ∧
    fp <:+: (boilerplate_of messages_token max_tokens_allowed fp ++ pv) ∧
    after.result.data
      = some (boilerplate_of messages_token max_tokens_allowed fp ++ pv)

theorem narrow_error_ne_nil (mt maxT : Nat) : narrow_error_of mt maxT ≠ [] := by
  simp [narrow_error_of, size_info_of]

theorem spill_drop_exclusive (after : ToolCallResult) (mt maxT : Nat)
    (sd : List Char) :
    ¬ (spillOutcome after mt maxT sd ∧ claimOutcomeB after) := by
  rintro ⟨⟨h1, -⟩, h2, -⟩
  rw [h1] at h2
  exact StructuredToolResultStatus.noConfusion h2

/-- Claim C1 as amended: handling an oversized `SUCCESS` result always
returns the original pre-mutation token count and ends in exactly one of two
outcomes: (a) status still `SUCCESS` with data equal to the boilerplate
(which contains the saved file path) followed by a preview — the slice of
the stringified data to the preview budget
`max(0, 2 * max_tokens_allowed - len(boilerplate))`, possibly empty — or
(b) status `ERROR`, data `None`, and a non-empty error message. -/
theorem C1_oversized_success_amended (tcr : ToolCallResult) (llm : LimiterLLM)
    (dir : Option (List Char)) (en : Bool)
    (strf : Option (List Char) → List Char × Bool) (wok : Bool)
    (hs : tcr.result.status = StructuredToolResultStatus.SUCCESS)
    (hbig : llm.max_token_count_for_single_tool < llm.count_message_tokens tcr) :
    (prevent_overly_big_tool_response tcr llm dir en strf wok).2
      = llm.count_message_tokens tcr ∧
    ((spillOutcome (prevent_overly_big_tool_response tcr llm dir en strf wok).1
        (llm.count_message_tokens tcr) llm.max_token_count_for_single_tool
        (strf tcr.result.data).1
      ∨ claimOutcomeB
          (prevent_overly_big_tool_response tcr llm dir en strf wok).1) ∧
    ¬ (spillOutcome (prevent_overly_big_tool_response tcr llm dir en strf wok).1
        (llm.count_message_tokens tcr) llm.max_token_count_for_single_tool
        (strf tcr.result.data).1
      ∧ claimOutcomeB
          (prevent_overly_big_tool_response tcr llm dir en strf wok).1)) := by
  have h1 : ¬ (tcr.result.status ≠ StructuredToolResultStatus.SUCCESS) := by
    simp [hs]
  have h2 : ¬ (llm.count_message_tokens tcr
      ≤ llm.max_token_count_for_single_tool) := not_le.mpr hbig
  refine ⟨?_, ?_, spill_drop_exclusive _ _ _ _⟩
  · simp only [prevent_overly_big_tool_response, if_neg h1, if_neg h2]
    rcases dir with - | d
    · rfl
    · cases en
      · rfl
      · cases wok <;> rfl
  · simp only [prevent_overly_big_tool_response, if_neg h1, if_neg h2]
    rcases dir with - | d
    · exact Or.inr ⟨rfl, rfl, narrow_error_of _ _, rfl, narrow_error_ne_nil _ _⟩
    · cases en
      · exact Or.inr ⟨rfl, rfl, narrow_error_of _ _, rfl, narrow_error_ne_nil _ _⟩
      · cases wok
        · exact Or.inr ⟨rfl, rfl, narrow_error_of _ _, rfl, narrow_error_ne_nil _ _⟩
        · refine Or.inl ⟨hs,
            d ++ "/".toList ++ result_filename tcr.tool_name tcr.tool_call_id
              (strf tcr.result.data).2, _, rfl, ?_, ?_, rfl⟩
          · rw [List.length_take]
            exact Nat.min_le_left _ _
          · exact ⟨size_info_of (llm.count_message_tokens tcr)
                llm.max_token_count_for_single_tool ++ "\n".toList
                ++ "Saved to: ".toList,
              "\n".toList
                ++ "Use the bash commands to access the data that won\x27t require prompting the user for approval (e.g. cat, grep, head, tail, jq).\n".toList
                ++ "\nPreview:\n".toList
                ++ (strf tcr.result.data).1.take
                  (preview_budget_of llm.max_token_count_for_single_tool
                    (boilerplate_of (llm.count_message_tokens tcr)
                      llm.max_token_count_for_single_tool
                      (d ++ "/".toList ++ result_filename tcr.tool_name
                        tcr.tool_call_id (strf tcr.result.data).2))),
              by simp [boilerplate_of, List.append_assoc]⟩

/-- The concrete oversized tool call of the C1 counterexample. -/
def c1_tcr : ToolCallResult :=
  ⟨"mytool".toList, "call1".toList,
    ⟨StructuredToolResultStatus.SUCCESS, some "payload data".toList, none⟩⟩

/-- The C1 counterexample's execution: 100 measured tokens against a
single-tool limit of 50, storage directory available and the write
succeeding. -/
def c1_out : ToolCallResult × Nat :=
  prevent_overly_big_tool_response c1_tcr ⟨fun _ => 100, 50⟩
    (some "/tmp/tool_results".toList) true
    (fun d => (d.getD [], false)) true

set_option maxRecDepth 8000 in
theorem c1_boilerplate_len (fp : List Char) :
    (boilerplate_of 100 50 fp).length
      = (boilerplate_of 100 50 []).length + fp.length := by
  simp [boilerplate_of, size_info_of, List.length_append]
  omega

set_option maxRecDepth 8000 in
theorem c1_boilerplate_base : 100 ≤ (boilerplate_of 100 50 []).length := by
  decide

theorem c1_budget_zero (fp : List Char) :
    preview_budget_of 50 (boilerplate_of 100 50 fp) = 0 := by
  have k := c1_boilerplate_len fp
  have b := c1_boilerplate_base
  unfold preview_budget_of
  omega

/-- Claim C1, counterexample: with 100 measured tokens against a single-tool
limit of 50, storage available and the write succeeding, the preview budget
`max(0, 2 * 50 - len(boilerplate))` is 0 for every file path (the
boilerplate alone is longer than 100 characters), so the preview is empty:
the result keeps status `SUCCESS` but satisfies neither claimed outcome (a)
— which demands a non-empty preview — nor outcome (b). -/
theorem C1_empty_preview_counterexample :
    c1_tcr.result.status = StructuredToolResultStatus.SUCCESS ∧
    (50 : Nat) < 100 ∧
    c1_out.2 = 100 ∧
    c1_out.1.result.status = StructuredToolResultStatus.SUCCESS ∧
    ¬ claimOutcomeA c1_out.1 100 50 ∧
    ¬ claimOutcomeB c1_out.1 := by
  refine ⟨rfl, by decide, rfl, rfl, ?_, ?_⟩
  · rintro ⟨-, fp, pv, hne, hlen, -⟩
    rw [c1_budget_zero fp] at hlen
    exact hne (List.length_eq_zero.mp (Nat.le_zero.mp hlen))
  · rintro ⟨herr, -, -⟩
    exact StructuredToolResultStatus.noConfusion herr

theorem C1_oversized_success_amended_witness :
    c1_out.2 = 100 ∧
    ((spillOutcome c1_out.1 100 50 "payload data".toList
      ∨ claimOutcomeB c1_out.1) ∧
    ¬ (spillOutcome c1_out.1 100 50 "payload data".toList
      ∧ claimOutcomeB c1_out.1)) :=
  C1_oversized_success_amended c1_tcr ⟨fun _ => 100, 50⟩
    (some "/tmp/tool_results".toList) true (fun d => (d.getD [], false)) true
    rfl (by decide)

/-! ### Scratch-scope storage (`tool_result_storage` context manager) -/

/-- A filesystem path, as its list of components. -/
abbrev FsPath := List (List Char)

/-- The `tool_result_storage` context manager from
`filesystem_result_storage.py` lines 22-37, over an explicit filesystem
state (the list of existing directories/files).  It creates
`<base>/<chat_id>/tool_results` (with parents), runs the body — which may
change the filesystem and may raise (second component `true`) — and in the
`finally` block attempts `shutil.rmtree(<base>/<chat_id>)`: on success every
path under the chat root is removed; a failure (`rmtree_ok = false`) is
caught and logged, never raised, so the body's exception status is returned
either way. -/
def tool_result_storage (fs0 : List FsPath) (base : FsPath)
    (chat_id : List Char) (body : List FsPath → List FsPath × Bool)
    (rmtree_ok : Bool) : List FsPath × Bool :=
  let tool_results_dir := base ++ [chat_id, "tool_results".toList]
  let fs1 := fs0 ++ [base, base ++ [chat_id], tool_results_dir]
  let r := body fs1
  let chat_root := base ++ [chat_id]
  let fs2 :=
    if rmtree_ok then r.1.filter (fun p => ¬ chat_root.isPrefixOf p) else r.1
  (fs2, r.2)

/-- Claim C9: on scope exit of `tool_result_storage` — whether the body
completed normally or raised — the body's exception status is what the
caller sees (a cleanup failure is never propagated), and when the recursive
deletion succeeds no path at or under `<base>/<chat_id>` remains in the
final filesystem; moreover cleanup only removes paths, never adds any. -/
theorem C9_scratch_scope_cleanup (fs0 : List FsPath) (base : FsPath)
    (chat_id : List Char) (body : List FsPath → List FsPath × Bool)
    (rmtree_ok : Bool) :
    (tool_result_storage fs0 base chat_id body rmtree_ok).2
      = (body (fs0 ++ [base, base ++ [chat_id],
          base ++ [chat_id, "tool_results".toList]])).2 ∧
    (rmtree_ok = true →
      ∀ p ∈ (tool_result_storage fs0 base chat_id body rmtree_ok).1,
        ¬ (base ++ [chat_id]) <+: p) ∧
    (∀ p ∈ (tool_result_storage fs0 base chat_id body rmtree_ok).1,
      p ∈ (body (fs0 ++ [base, base ++ [chat_id],
          base ++ [chat_id, "tool_results".toList]])).1) := by
  refine ⟨rfl, ?_, ?_⟩
  · intro hrm p hp
    subst hrm
    simp only [tool_result_storage, if_true, List.mem_filter, decide_not,
      Bool.not_eq_eq_eq_not, Bool.not_true, decide_eq_false_iff_not] at hp
    rw [← List.isPrefixOf_iff_prefix]
    simp [hp.2]
  · intro p hp
    cases rmtree_ok
    · exact hp
    · simp only [tool_result_storage, if_true, List.mem_filter] at hp
      exact hp.1

theorem C9_scratch_scope_cleanup_witness :
    (tool_result_storage [] ["tmp".toList] "abc".toList
        (fun fs => (fs, false)) true).2
      = ((fun (fs : List FsPath) => (fs, false)) ([] ++ [["tmp".toList],
          ["tmp".toList] ++ ["abc".toList],
          ["tmp".toList] ++ ["abc".toList, "tool_results".toList]])).2 ∧
    (true = true →
      ∀ p ∈ (tool_result_storage [] ["tmp".toList] "abc".toList
          (fun fs => (fs, false)) true).1,
        ¬ (["tmp".toList] ++ ["abc".toList]) <+: p) ∧
    (∀ p ∈ (tool_result_storage [] ["tmp".toList] "abc".toList
        (fun fs => (fs, false)) true).1,
      p ∈ ((fun (fs : List FsPath) => (fs, false)) ([] ++ [["tmp".toList],
          ["tmp".toList] ++ ["abc".toList],
          ["tmp".toList] ++ ["abc".toList, "tool_results".toList]])).1) :=
  C9_scratch_scope_cleanup [] ["tmp".toList] "abc".toList
    (fun fs => (fs, false)) true

/-! ### Heap view of `build_chat_messages` (aliasing and in-place mutation) -/

/-- Reading a message dict through a reference (list index).  Message dicts
live in a heap (a `List Message` indexed by position) so that Python's
reference semantics — the caller's dicts being shared with the callee's
copied list — is explicit. -/
def readMsg (heap : List Message) (r : Nat) : Message := heap.getD r ⟨[], []⟩

/-- `add_or_update_system_prompt` (lines 233-261) acting on the heap and a
list of references: overwriting `history[0]["content"]` writes through the
shared reference; appending or inserting allocates a fresh dict (at index
`heap.length`) and only changes the reference list. -/
def add_or_update_system_prompt_heap (heap : List Message) (hist : List Nat)
    (system_prompt : Option (List Char)) : List Message × List Nat :=
  match system_prompt with
  | none => (heap, hist)
  | some p =>
    match hist with
    | [] => (heap ++ [⟨"system".toList, p⟩], [heap.length])
    | r0 :: rest =>
      if (readMsg heap r0).role = "system".toList then
        (heap.set r0 ⟨(readMsg heap r0).role, p⟩, r0 :: rest)
      else if (r0 :: rest).any
          (fun r => (readMsg heap r).role = "system".toList) then
        (heap, r0 :: rest)
      else
        (heap ++ [⟨"system".toList, p⟩], heap.length :: r0 :: rest)

/-- `truncate_tool_messages` (lines 61-64) on the heap: the loop mutates
each referenced dict whose role is `tool` in place, slicing its content. -/
def truncate_tool_messages_heap (heap : List Message) (hist : List Nat)
    (tool_size : Int) : List Message :=
  hist.foldl (fun h r =>
    if (readMsg h r).role = "tool".toList then
      h.set r ⟨(readMsg h r).role, pySlice (readMsg h r).content tool_size⟩
    else h) heap

theorem readMsg_append_of_lt (heap : List Message) (x : Message) (r : Nat)
    (h : r < heap.length) : readMsg (heap ++ [x]) r = readMsg heap r :=
  List.getD_append _ _ _ _ h

theorem readMsg_set_of_ne (heap : List Message) (i : Nat) (m : Message)
    (r : Nat) (h : i ≠ r) : readMsg (heap.set i m) r = readMsg heap r := by
  simp [readMsg, List.getD, List.getElem?_set_ne h]

theorem readMsg_set_self (heap : List Message) (i : Nat) (m : Message)
    (h : i < heap.length) : readMsg (heap.set i m) i = m := by
  simp [readMsg, List.getD, List.getElem?_set_self, h]

theorem truncate_heap_length (hist : List Nat) (heap : List Message)
    (k : Int) :
    (truncate_tool_messages_heap heap hist k).length = heap.length := by
  induction hist generalizing heap with
  | nil => rfl
  | cons a t ih =>
      show (truncate_tool_messages_heap _ t k).length = _
      rw [ih]
      dsimp only
      split
      · exact List.length_set _ _ _
      · rfl

theorem truncate_heap_readMsg_not_mem (hist : List Nat) (heap : List Message)
    (k : Int) (r : Nat) (hr : r ∉ hist) :
    readMsg (truncate_tool_messages_heap heap hist k) r = readMsg heap r := by
  induction hist generalizing heap with
  | nil => rfl
  | cons a t ih =>
      have hra : r ≠ a := fun h => hr (h ▸ List.mem_cons_self a t)
      have hrt : r ∉ t := fun h => hr (List.mem_cons_of_mem a h)
      show readMsg (truncate_tool_messages_heap _ t k) r = _
      rw [ih _ hrt]
      dsimp only
      split
      · exact readMsg_set_of_ne _ _ _ _ (Ne.symm hra)
      · rfl

theorem truncate_heap_readMsg_mem (hist : List Nat) (heap : List Message)
    (k : Int) (r : Nat) (hnd : hist.Nodup) (hr : r ∈ hist)
    (hlt : r < heap.length) :
    readMsg (truncate_tool_messages_heap heap hist k) r
      = if (readMsg heap r).role = "tool".toList then
          ⟨(readMsg heap r).role, pySlice (readMsg heap r).content k⟩
        else readMsg heap r := by
  induction hist generalizing heap with
  | nil => cases hr
  | cons a t ih =>
      have hnd' : t.Nodup := (List.nodup_cons.mp hnd).2
      have hna : a ∉ t := (List.nodup_cons.mp hnd).1
      show readMsg (truncate_tool_messages_heap
        (if (readMsg heap a).role = "tool".toList then
          heap.set a ⟨(readMsg heap a).role,
            pySlice (readMsg heap a).content k⟩
        else heap) t k) r = _
      rcases List.mem_cons.mp hr with rfl | hrt
      · rw [truncate_heap_readMsg_not_mem t _ k r hna]
        split
        · exact readMsg_set_self _ _ _ hlt
        · rfl
      · have hra : r ≠ a := fun h => hna (h ▸ hrt)
        have hread : readMsg
            (if (readMsg heap a).role = "tool".toList then
              heap.set a ⟨(readMsg heap a).role,
                pySlice (readMsg heap a).content k⟩
            else heap) r = readMsg heap r := by
          split
          · exact readMsg_set_of_ne _ _ _ _ (Ne.symm hra)
          · rfl
        have hlt' : r < (if (readMsg heap a).role = "tool".toList then
            heap.set a ⟨(readMsg heap a).role,
              pySlice (readMsg heap a).content k⟩
          else heap).length := by
          split
          · rw [List.length_set]; exact hlt
          · exact hlt
        rw [ih _ hnd' hrt hlt', hread]

/-- The heap after `build_chat_messages` has updated the system prompt and
appended the user turn (lines 296-304): the user message is a fresh dict. -/
def chat_heap2 (heap : List Message) (hist : List Nat)
    (system_prompt : Option (List Char)) (user_content : List Char) :
    List Message :=
  (add_or_update_system_prompt_heap heap hist system_prompt).1
    ++ [⟨"user".toList, user_content⟩]

/-- The reference list after the copy, the system-prompt update and the
append of the user turn (lines 296-304). -/
def chat_hist2 (heap : List Message) (hist : List Nat)
    (system_prompt : Option (List Char)) : List Nat :=
  (add_or_update_system_prompt_heap heap hist system_prompt).2
    ++ [(add_or_update_system_prompt_heap heap hist system_prompt).1.length]

/-- `number_of_tools` of `build_chat_messages` (lines 306-308). -/
def chat_tool_count (heap : List Message) (hist : List Nat)
    (system_prompt : Option (List Char)) (user_content : List Char) : Nat :=
  ((chat_hist2 heap hist system_prompt).filter
    (fun r => (readMsg (chat_heap2 heap hist system_prompt user_content) r).role
      = "tool".toList)).length

/-- The tool budget `build_chat_messages` computes from the tool-free view
(lines 312-320). -/
def chat_tool_size (heap : List Message) (hist : List Nat)
    (system_prompt : Option (List Char)) (user_content : List Char)
    (ai : ConvLLM) : Int :=
  calculate_tool_size ai
    (((chat_hist2 heap hist system_prompt).filter
      (fun r => (readMsg (chat_heap2 heap hist system_prompt user_content) r).role
        ≠ "tool".toList)).map
      (readMsg (chat_heap2 heap hist system_prompt user_content)))
    (chat_tool_count heap hist system_prompt user_content)

/-- `build_chat_messages` from `holmes/core/conversations.py` lines 264-322,
on the heap view.  The caller's reference list is copied (list values are
immutable here, which is exactly what `conversation_history.copy()`
guarantees), the system prompt is inserted/updated, the user turn appended;
if no `tool`-role message is reachable the pair is returned as is, and
otherwise every reachable `tool`-role dict is truncated in place with the
computed budget. -/
def build_chat_messages (heap : List Message) (hist : List Nat)
    (system_prompt : Option (List Char)) (user_content : List Char)
    (ai : ConvLLM) : List Message × List Nat :=
  if chat_tool_count heap hist system_prompt user_content = 0 then
    (chat_heap2 heap hist system_prompt user_content,
     chat_hist2 heap hist system_prompt)
  else
    (truncate_tool_messages_heap
      (chat_heap2 heap hist system_prompt user_content)
      (chat_hist2 heap hist system_prompt)
      (chat_tool_size heap hist system_prompt user_content ai),
     chat_hist2 heap hist system_prompt)

theorem add_heap_spec (heap : List Message) (hist : List Nat)
    (sp : Option (List Char)) (hvalid : ∀ r ∈ hist, r < heap.length) :
    (∃ ns, (add_or_update_system_prompt_heap heap hist sp).2 = ns ++ hist ∧
      ns.length ≤ 1 ∧
      (∀ r ∈ ns, heap.length ≤ r
        ∧ r < (add_or_update_system_prompt_heap heap hist sp).1.length)) ∧
    heap.length ≤ (add_or_update_system_prompt_heap heap hist sp).1.length ∧
    (∀ r ∈ hist, ∀ p, hist.head? = some r → sp = some p →
      (readMsg heap r).role = "system".toList →
      readMsg (add_or_update_system_prompt_heap heap hist sp).1 r
        = ⟨(readMsg heap r).role, p⟩) ∧
    (∀ r ∈ hist,
      ((readMsg heap r).role ≠ "system".toList ∨ hist.head? ≠ some r
        ∨ sp = none) →
      readMsg (add_or_update_system_prompt_heap heap hist sp).1 r
        = readMsg heap r) := by
  rcases sp with - | p
  · refine ⟨⟨[], rfl, by simp, by simp⟩, le_rfl, ?_, ?_⟩
    · intro r hr q hhead hsp
      cases hsp
    · intro r hr hdisj
      rfl
  · rcases hist with - | ⟨r0, rest⟩
    · refine ⟨⟨[heap.length], by simp [add_or_update_system_prompt_heap],
        by simp, ?_⟩,
        by simp [add_or_update_system_prompt_heap], ?_, ?_⟩
      · intro r hr
        simp only [List.mem_singleton] at hr
        subst hr
        simp [add_or_update_system_prompt_heap]
      · intro r hr
        cases hr
      · intro r hr
        cases hr
    · by_cases hsys : (readMsg heap r0).role = "system".toList
      · have heq : add_or_update_system_prompt_heap heap (r0 :: rest) (some p)
            = (heap.set r0 ⟨(readMsg heap r0).role, p⟩, r0 :: rest) := by
          simp [add_or_update_system_prompt_heap, hsys]
        rw [heq]
        refine ⟨⟨[], rfl, by simp, by simp⟩, by simp, ?_, ?_⟩
        · intro r hr q hhead hsp hrole
          injection hsp with hq
          subst hq
          rw [List.head?_cons] at hhead
          injection hhead with hh
          subst hh
          exact readMsg_set_self _ _ _ (hvalid _ hr)
        · intro r hr hdisj
          by_cases hr0 : r = r0
          · subst hr0
            rcases hdisj with h | h | h
            · exact absurd hsys h
            · exact absurd (by rw [List.head?_cons]) h
            · cases h
          · exact readMsg_set_of_ne _ _ _ _ (fun h => hr0 h.symm)
      · by_cases hany : ((r0 :: rest).any
            (fun r => (readMsg heap r).role = "system".toList)) = true
        · have heq : add_or_update_system_prompt_heap heap (r0 :: rest) (some p)
              = (heap, r0 :: rest) := by
            simp only [add_or_update_system_prompt_heap, if_neg hsys,
              if_pos hany]
          rw [heq]
          refine ⟨⟨[], rfl, by simp, by simp⟩, le_rfl, ?_, ?_⟩
          · intro r hr q hhead hsp hrole
            rw [List.head?_cons] at hhead
            injection hhead with hh
            subst hh
            exact absurd hrole hsys
          · intro r hr hdisj
            rfl
        · have heq : add_or_update_system_prompt_heap heap (r0 :: rest) (some p)
              = (heap ++ [⟨"system".toList, p⟩], heap.length :: r0 :: rest) := by
            simp only [add_or_update_system_prompt_heap, if_neg hsys]
            rw [if_neg]
            intro h
            exact hany h
          rw [heq]
          refine ⟨⟨[heap.length], rfl, by simp, ?_⟩, by simp, ?_, ?_⟩
          · intro r hr
            simp only [List.mem_singleton] at hr
            subst hr
            simp
          · intro r hr q hhead hsp hrole
            rw [List.head?_cons] at hhead
            injection hhead with hh
            subst hh
            exact absurd hrole hsys
          · intro r hr hdisj
            exact readMsg_append_of_lt _ _ _ (hvalid r hr)

/-- Claim C10: `build_chat_messages` never changes the length or order of
the caller's reference list — the returned list is the caller's list with at
most one fresh (system) reference prepended and exactly one fresh user
reference appended — but the message dicts stay shared: every `tool`-role
dict reachable through the caller's original references has its content
truncated in place with the computed budget, and a position-0 system-role
dict has its content overwritten in place with the new system prompt. -/
theorem C10_build_chat_messages_frame (heap : List Message) (hist : List Nat)
    (sp : Option (List Char)) (uc : List Char) (ai : ConvLLM)
    (hnd : hist.Nodup) (hvalid : ∀ r ∈ hist, r < heap.length) :
    (∃ ns u, (build_chat_messages heap hist sp uc ai).2 = ns ++ hist ++ [u] ∧
      ns.length ≤ 1 ∧ (∀ r ∈ ns, heap.length ≤ r) ∧ heap.length ≤ u) ∧
    (∀ r ∈ hist, (readMsg heap r).role = "tool".toList →
      readMsg (build_chat_messages heap hist sp uc ai).1 r
        = ⟨(readMsg heap r).role,
            pySlice (readMsg heap r).content
              (chat_tool_size heap hist sp uc ai)⟩) ∧
    (∀ r0 rest p, hist = r0 :: rest → sp = some p →
      (readMsg heap r0).role = "system".toList →
      readMsg (build_chat_messages heap hist sp uc ai).1 r0
        = ⟨(readMsg heap r0).role, p⟩) := by
  obtain ⟨⟨ns, hns, hns1, hnsb⟩, hHlen, hP3a, hP3b⟩ :=
    add_heap_spec heap hist sp hvalid
  have hH2len : heap.length ≤ (chat_heap2 heap hist sp uc).length := by
    have h : (chat_heap2 heap hist sp uc).length
        = (add_or_update_system_prompt_heap heap hist sp).1.length + 1 := by
      simp [chat_heap2]
    omega
  have hhist2 : chat_hist2 heap hist sp
      = ns ++ hist ++ [(add_or_update_system_prompt_heap heap hist sp).1.length] := by
    simp [chat_hist2, hns, List.append_assoc]
  have hout2 : (build_chat_messages heap hist sp uc ai).2
      = chat_hist2 heap hist sp := by
    unfold build_chat_messages
    split <;> rfl
  have hread2 : ∀ r ∈ hist, readMsg (chat_heap2 heap hist sp uc) r
      = readMsg (add_or_update_system_prompt_heap heap hist sp).1 r :=
    fun r hr => readMsg_append_of_lt _ _ _
      (lt_of_lt_of_le (hvalid r hr) hHlen)
  have hmem2 : ∀ r ∈ hist, r ∈ chat_hist2 heap hist sp := by
    rw [hhist2]
    intro r hr
    simp [hr]
  have hnd2 : (chat_hist2 heap hist sp).Nodup := by
    rw [hhist2]
    have hcases : ns = [] ∨ ∃ n0, ns = [n0] := by
      rcases ns with - | ⟨n0, ns'⟩
      · exact Or.inl rfl
      · right
        refine ⟨n0, ?_⟩
        have : ns'.length = 0 := by
          have := hns1
          simp only [List.length_cons] at this
          omega
        rw [List.length_eq_zero] at this
        rw [this]
    have hdisj_hist_u : ∀ r ∈ hist,
        r ≠ (add_or_update_system_prompt_heap heap hist sp).1.length :=
      fun r hr => Nat.ne_of_lt (lt_of_lt_of_le (hvalid r hr) hHlen)
    have hnd_hu : (hist
        ++ [(add_or_update_system_prompt_heap heap hist sp).1.length]).Nodup := by
      rw [List.nodup_append]
      refine ⟨hnd, List.nodup_singleton _, ?_⟩
      intro r hr hmem
      simp only [List.mem_singleton] at hmem
      exact hdisj_hist_u r hr hmem
    rcases hcases with rfl | ⟨n0, rfl⟩
    · simpa using hnd_hu
    · rw [List.append_assoc, List.nodup_append]
      refine ⟨List.nodup_singleton _, hnd_hu, ?_⟩
      intro r hr hmem
      simp only [List.mem_singleton] at hr
      subst hr
      have hb := hnsb r (List.mem_singleton_self r)
      rcases List.mem_append.mp hmem with hments | hmentu
      · exact absurd (hvalid r hments) (by omega)
      · simp only [List.mem_singleton] at hmentu
        omega
  refine ⟨?_, ?_, ?_⟩
  · refine ⟨ns, (add_or_update_system_prompt_heap heap hist sp).1.length,
      ?_, hns1, fun r hr => (hnsb r hr).1, hHlen⟩
    rw [hout2, hhist2]
  · intro r hr htool
    have hrole_ne : (readMsg heap r).role ≠ "system".toList := by
      rw [htool]
      decide
    have hrA : readMsg (add_or_update_system_prompt_heap heap hist sp).1 r
        = readMsg heap r := hP3b r hr (Or.inl hrole_ne)
    have hr2 : readMsg (chat_heap2 heap hist sp uc) r = readMsg heap r :=
      (hread2 r hr).trans hrA
    have hlt2 : r < (chat_heap2 heap hist sp uc).length :=
      lt_of_lt_of_le (hvalid r hr) hH2len
    have hcnt : chat_tool_count heap hist sp uc ≠ 0 := by
      intro h0
      unfold chat_tool_count at h0
      rw [List.length_eq_zero, List.filter_eq_nil_iff] at h0
      exact (h0 r (hmem2 r hr)) (by simp [hr2, htool])
    unfold build_chat_messages
    rw [if_neg hcnt]
    rw [truncate_heap_readMsg_mem (chat_hist2 heap hist sp)
      (chat_heap2 heap hist sp uc) (chat_tool_size heap hist sp uc ai) r
      hnd2 (hmem2 r hr) hlt2]
    rw [hr2, if_pos htool]
  · intro r0 rest p hh hsp hsys
    subst hh
    have hr0mem : r0 ∈ r0 :: rest := List.mem_cons_self r0 rest
    have hA : readMsg
        (add_or_update_system_prompt_heap heap (r0 :: rest) sp).1 r0
        = ⟨(readMsg heap r0).role, p⟩ :=
      hP3a r0 hr0mem p (by rw [List.head?_cons]) hsp hsys
    have h2 : readMsg (chat_heap2 heap (r0 :: rest) sp uc) r0
        = ⟨(readMsg heap r0).role, p⟩ := (hread2 r0 hr0mem).trans hA
    have hlt2 : r0 < (chat_heap2 heap (r0 :: rest) sp uc).length :=
      lt_of_lt_of_le (hvalid r0 hr0mem) hH2len
    unfold build_chat_messages
    split
    · exact h2
    · rw [truncate_heap_readMsg_mem (chat_hist2 heap (r0 :: rest) sp)
        (chat_heap2 heap (r0 :: rest) sp uc)
        (chat_tool_size heap (r0 :: rest) sp uc ai) r0
        hnd2 (hmem2 r0 hr0mem) hlt2]
      rw [h2]
      rw [if_neg]
      rw [hsys]
      decide

/-- Concrete heap for the C10 witness: a system dict at index 0 and a
tool dict at index 1. -/
def c10_heap : List Message :=
  [⟨"system".toList, "old".toList⟩, ⟨"tool".toList, "0123456789".toList⟩]

theorem C10_build_chat_messages_frame_witness :
    (∃ ns u, (build_chat_messages c10_heap [0, 1] (some "P".toList)
        "u".toList ⟨8000, fun _ => 2000, 1000⟩).2 = ns ++ [0, 1] ++ [u] ∧
      ns.length ≤ 1 ∧ (∀ r ∈ ns, c10_heap.length ≤ r) ∧
      c10_heap.length ≤ u) ∧
    (∀ r ∈ [0, 1], (readMsg c10_heap r).role = "tool".toList →
      readMsg (build_chat_messages c10_heap [0, 1] (some "P".toList)
          "u".toList ⟨8000, fun _ => 2000, 1000⟩).1 r
        = ⟨(readMsg c10_heap r).role,
            pySlice (readMsg c10_heap r).content
              (chat_tool_size c10_heap [0, 1] (some "P".toList) "u".toList
                ⟨8000, fun _ => 2000, 1000⟩)⟩) ∧
    (∀ r0 rest p, ([0, 1] : List Nat) = r0 :: rest →
      (some "P".toList : Option (List Char)) = some p →
      (readMsg c10_heap r0).role = "system".toList →
      readMsg (build_chat_messages c10_heap [0, 1] (some "P".toList)
          "u".toList ⟨8000, fun _ => 2000, 1000⟩).1 r0
        = ⟨(readMsg c10_heap r0).role, p⟩) :=
  C10_build_chat_messages_frame c10_heap [0, 1] (some "P".toList) "u".toList
    ⟨8000, fun _ => 2000, 1000⟩ (by decide) (by decide)
